import Mathlib

/-!
Verification development for the property/permit matching and audience
building engine (`joinPermitsRentcast.py`, `audienceBuilder.py`).

The Python code is shallowly embedded: dictionaries with possibly missing
or null entries become structures with `Option` fields, pandas data frames
become lists of records, numeric values become `Rat`, and a UTC timestamp
is abstracted to the two observations the engine makes of it (its calendar
year, used by the year filters, and its day number, whose differences give
the day counts used by the sale-to-permit gap).  Python floating point
division by 365.25 is modelled by exact rational division.
-/

/-- `str(x)` applied to an optional string: a missing value (Python `None`)
stringifies to the literal token `"None"` instead of raising. -/
def pyStr (v : Option String) : String :=
  match v with
  | some s => s
  | none => "None"

/-- `.lower()` on a string (ASCII case mapping, as exercised by the data). -/
def pyLower (s : String) : String :=
  String.mk (s.toList.map Char.toLower)

/-- `.strip()` on a string: drop leading and trailing whitespace. -/
def pyStrip (s : String) : String :=
  String.mk (((s.toList.dropWhile Char.isWhitespace).reverse.dropWhile
    Char.isWhitespace).reverse)

/-- `.isdigit()`: true iff the string is nonempty and all characters are digits. -/
def pyIsDigit (s : String) : Bool :=
  s ≠ "" && s.toList.all Char.isDigit

/-- Break a character list at the first space, as `split(' ', 1)` does. -/
def breakAtSpace : List Char → Option (List Char × List Char)
  | [] => none
  | c :: cs =>
    if c = ' ' then some ([], cs)
    else
      match breakAtSpace cs with
      | some (pre, post) => some (c :: pre, post)
      | none => none

/-- `s.split(' ', 1)`: one part when `s` has no space, otherwise the text
before the first space and everything after it. -/
def splitFirstSpace (s : String) : List String :=
  match breakAtSpace s.toList with
  | some (pre, post) => [String.mk pre, String.mk post]
  | none => [s]

/-- Substring containment on character lists (`in` on Python strings). -/
def listContainsSub (needle : List Char) : List Char → Bool
  | [] => needle.isEmpty
  | c :: rest => needle.isPrefixOf (c :: rest) || listContainsSub needle rest

/-- `sub in s` for Python strings. -/
def strContainsSub (s sub : String) : Bool :=
  listContainsSub sub.toList s.toList

/-- `normalize_address_without_city` from `joinPermitsRentcast.py`: the street
number and street are stringified and lower-cased, the zip code is only
stringified, and the three are joined with single spaces. -/
def normalize_address_without_city (street_no street zip_code : Option String) : String :=
  pyLower (pyStr street_no) ++ " " ++ pyLower (pyStr street) ++ " " ++ pyStr zip_code

/-- `normalize_address` from `joinPermitsRentcast.py`: street number, street
and city are stringified and lower-cased, the zip code is only stringified,
and the four are joined with single spaces. -/
def normalize_address (street_no street city zip_code : Option String) : String :=
  pyLower (pyStr street_no) ++ " " ++ pyLower (pyStr street) ++ " " ++
    pyLower (pyStr city) ++ " " ++ pyStr zip_code

/-- A property record as seen by the matching stage (`joinPermitsRentcast.py`):
the dictionary entries the code reads, `none` standing for a missing entry. -/
structure MatchProp where
  id : Option String
  addressLine1 : Option String
  addressLine2 : Option String
  city : Option String
  zipCode : Option String
  propertyType : Option String
deriving Repr, DecidableEq

/-- The fixed keyword set used to spot apartment units in `addressLine2`. -/
def apartment_indicators : List String :=
  ["apt", "suite", "ste", "unit", "#", "floor", "fl"]

/-- `is_apartment` from `joinPermitsRentcast.py`: `propertyType == "Apartment"`,
or a nonempty secondary address line containing one of the indicator keywords
(case-insensitive substring match). -/
def is_apartment (p : MatchProp) : Bool :=
  if p.propertyType = some "Apartment" then true
  else
    let a2 := p.addressLine2.getD ""
    if a2 ≠ "" then
      apartment_indicators.any (fun ind => strContainsSub (pyLower a2) ind)
    else false

/-- The eligibility-and-parse step shared by the grouping loop of
`process_data` and by `process_batch`: skip apartments, skip a missing or
empty `addressLine1`, split the stripped line at the first space requiring a
strictly numeric first token, then require street number, street, city and
zip code all truthy.  Returns the `(street_no, street, city, zip_code)`
components, or `none` when the record is dropped from matching. -/
def propAddr (p : MatchProp) : Option (String × String × String × String) :=
  if is_apartment p then none
  else
    let line := p.addressLine1.getD ""
    if line = "" then none
    else
      match splitFirstSpace (pyStrip line) with
      | [no, street] =>
        if pyIsDigit no then
          let city := p.city.getD ""
          let zip := p.zipCode.getD ""
          if no ≠ "" && street ≠ "" && city ≠ "" && zip ≠ "" then
            some (no, street, city, zip)
          else none
        else none
      | _ => none

/-- The full (with-city) normalized key of a matching-eligible property. -/
def fullKeyOf (p : MatchProp) : Option String :=
  (propAddr p).map (fun a =>
    normalize_address (some a.1) (some a.2.1) (some a.2.2.1) (some a.2.2.2))

/-- The no-city normalized key of a matching-eligible property, used to
group duplicate address variants. -/
def noCityKeyOf (p : MatchProp) : Option String :=
  (propAddr p).map (fun a =>
    normalize_address_without_city (some a.1) (some a.2.1) (some a.2.2.2))

/-- A permit row of the matching stage, with its precomputed
`normalized_address` column. -/
structure PermitRow where
  permit_id : Option String
  state : Option String
  normalized_address : String
deriving Repr, DecidableEq

/-- One emitted match pair. -/
structure MatchPair where
  property : MatchProp
  permit : PermitRow
deriving Repr, DecidableEq

/-- `process_batch` from `joinPermitsRentcast.py`: for each eligible property
of the batch, emit one match pair per permit row whose normalized address
equals the property's full normalized address. -/
def process_batch (batch : List MatchProp) (permits_df : List PermitRow) : List MatchPair :=
  batch.flatMap (fun prop =>
    match propAddr prop with
    | none => []
    | some a =>
      let norm := normalize_address (some a.1) (some a.2.1) (some a.2.2.1) (some a.2.2.2)
      (permits_df.filter (fun q => q.normalized_address = norm)).map
        (fun q => { property := prop, permit := q }))

/-- Append a property to its group in the insertion-ordered group list
(Python dict semantics: a new key goes to the end, an existing key keeps its
position and its list grows at the end). -/
def groupAppend (gs : List (String × List MatchProp)) (k : String) (p : MatchProp) :
    List (String × List MatchProp) :=
  match gs with
  | [] => [(k, [p])]
  | (k0, g0) :: rest =>
    if k0 = k then (k0, g0 ++ [p]) :: rest
    else (k0, g0) :: groupAppend rest k p

/-- The grouping pass of `process_data`: eligible properties are grouped by
their no-city normalized key, in input order. -/
def buildGroups (props : List MatchProp) : List (String × List MatchProp) :=
  props.foldl (fun gs p =>
    match noCityKeyOf p with
    | some k => groupAppend gs k p
    | none => gs) []

/-- Does some permit row carry exactly this property's full normalized
address (`permits_df['normalized_address'].eq(norm_addr).any()`)? -/
def groupHasPermitMatch (permitKeys : List String) (p : MatchProp) : Bool :=
  match fullKeyOf p with
  | some k => decide (k ∈ permitKeys)
  | none => false

/-- The duplicate-resolution step of `process_data`: a single-member group
passes through; a larger group keeps the first member whose full normalized
address has a permit match, or its first member when none has. -/
def selectFromGroup (permitKeys : List String) (g : List MatchProp) : List MatchProp :=
  match g with
  | [] => []
  | [p] => [p]
  | p :: q :: rest =>
    match (p :: q :: rest).find? (groupHasPermitMatch permitKeys) with
    | some r => [r]
    | none => [p]

/-- The deduplicated property list of `process_data`: one survivor per
group, groups in insertion order. -/
def unique_properties (permitKeys : List String) (props : List MatchProp) : List MatchProp :=
  (buildGroups props).flatMap (fun kg => selectFromGroup permitKeys kg.2)

/-- A UTC timestamp, abstracted to the calendar year read by the year
filters and the epoch day number whose differences give the `.days` counts
used by the sale-to-permit gap. -/
structure Timestamp where
  year : Int
  epochDay : Int
deriving Repr, DecidableEq

/-- One row of `properties_df` after `load_data`: coerced numeric fields
(invalid or missing values became null), renamed columns, UTC sale date. -/
structure PropertyRec where
  id : String
  state : String
  propertyType : Option String
  yearBuilt : Option Rat
  beds : Option Rat
  baths : Option Rat
  buildingSize : Option Rat
  lastSaleDate : Option Timestamp
  lastSalePrice : Option Rat
deriving Repr, DecidableEq

/-- One row of `permits_df` after `load_data`, indexed by `permit_id`. -/
structure PermitRec where
  permit_id : String
  state : String
  file_date : Option Timestamp
deriving Repr, DecidableEq

/-- The `property` object of a raw match entry, reduced to the field the
index-building scan reads. -/
structure RawProperty where
  id : Option String
deriving Repr, DecidableEq

/-- The `permit` object of a raw match entry, reduced to the field the
index-building scan reads. -/
structure RawPermit where
  permit_id : Option String
deriving Repr, DecidableEq

/-- One entry of a matches file: the `property` and `permit` keys may each
be absent. -/
structure RawMatch where
  property : Option RawProperty
  permit : Option RawPermit
deriving Repr, DecidableEq

/-- The guard of the index-building scan: a match contributes a
`(property_id, permit_id)` pair when both objects are present and both ids
are truthy (present, nonempty) strings. -/
def admitPair (m : RawMatch) : Option (String × String) :=
  match m.property, m.permit with
  | some p, some q =>
    match p.id, q.permit_id with
    | some pid, some qid =>
      if pid ≠ "" && qid ≠ "" then some (pid, qid) else none
    | _, _ => none
  | _, _ => none

/-- All admitted `(property_id, permit_id)` pairs, files in configuration
order and matches in file order — the scan order of `load_data` and of the
rebuild inside `build_audience`. -/
def admittedPairs (files : List (String × List RawMatch)) : List (String × String) :=
  files.flatMap (fun sf => sf.2.filterMap admitPair)

/-- Look a key up in an insertion-ordered association list (Python dict). -/
def lookupAssoc {β : Type} (m : List (String × β)) (k : String) : Option β :=
  match m with
  | [] => none
  | (k0, v) :: rest => if k0 = k then some v else lookupAssoc rest k

/-- `d.setdefault(k, []); d[k].append(v)`: grow the list under `k`,
creating the key at the end of the dict when it is new. -/
def appendAssoc (m : List (String × List String)) (k v : String) :
    List (String × List String) :=
  match m with
  | [] => [(k, [v])]
  | (k0, l) :: rest =>
    if k0 = k then (k0, l ++ [v]) :: rest
    else (k0, l) :: appendAssoc rest k v

/-- `d[k] = v` on a dict: overwrite in place, or append a new key. -/
def setAssoc (m : List (String × String)) (k v : String) : List (String × String) :=
  match m with
  | [] => [(k, v)]
  | (k0, v0) :: rest =>
    if k0 = k then (k0, v) :: rest
    else (k0, v0) :: setAssoc rest k v

/-- `property_permit_map`: each admitted pair appends the permit id to the
property's list. -/
def property_permit_map (files : List (String × List RawMatch)) :
    List (String × List String) :=
  (admittedPairs files).foldl (fun m pr => appendAssoc m pr.1 pr.2) []

/-- `permit_property_map`: each admitted pair stores the property id under
the permit id, later pairs overwriting earlier ones. -/
def permit_property_map (files : List (String × List RawMatch)) :
    List (String × String) :=
  (admittedPairs files).foldl (fun m pr => setAssoc m pr.2 pr.1) []

/-- The property accumulation of `load_data`: every match entry carrying a
`property` object contributes one record, whatever its ids. -/
def properties_list (files : List (String × List RawMatch)) : List RawProperty :=
  files.flatMap (fun sf => sf.2.filterMap (fun m => m.property))

/-- The number of usable property records a single file contributes. -/
def regionUsable (ms : List RawMatch) : Nat :=
  (ms.filterMap (fun m => m.property)).length

/-- `load_data`: accumulate the property records of every region, raising
`ValueError` (modelled as `Except.error`) only when the combined list over
all regions is empty. -/
def load_data (files : List (String × List RawMatch)) :
    Except String (List RawProperty) :=
  let props := properties_list files
  if props.isEmpty then
    Except.error "No data loaded from any of the matches files"
  else
    Except.ok props

/-- An `AudienceBuilder` after a successful `load_data`: the loaded tables
plus the contents of its matches files (from which both `load_data` and
`build_audience` derive the property-permit index by the same scan). -/
structure Builder where
  matches_files : List (String × List RawMatch)
  properties_df : List PropertyRec
  permits_df : List PermitRec
deriving Repr, DecidableEq

/-- The permit ids associated with a property id
(`property_permit_map.get(property_id, [])`). -/
def permitIds (b : Builder) (pid : String) : List String :=
  (lookupAssoc (property_permit_map b.matches_files) pid).getD []

/-- `[min, max]` bound test against a nullable value: a null value never
passes, both bounds are inclusive, and a missing bound imposes nothing. -/
def rangeMask {α : Type} [LinearOrder α] (v lo hi : Option α) : Bool :=
  match v with
  | none => false
  | some x =>
    (match lo with
     | none => true
     | some l => decide (l ≤ x)) &&
    (match hi with
     | none => true
     | some h => decide (x ≤ h))

/-- One range filter of `filter_properties`: it contributes only when at
least one bound is not `None`; an absent constraint restricts nothing. -/
def boundedMask {α : Type} [LinearOrder α] (v lo hi : Option α) : Bool :=
  if lo.isSome || hi.isSome then rangeMask v lo hi else true

/-- The keyword arguments `filter_properties` reads (each defaults to
`None`; the function reads no other keys, so the UI's `include_null_*`
session flags have no counterpart here). -/
structure PropertyFilters where
  min_year_built : Option Rat
  max_year_built : Option Rat
  min_sale_year : Option Int
  max_sale_year : Option Int
  min_sale_price : Option Rat
  max_sale_price : Option Rat
  min_beds : Option Rat
  max_beds : Option Rat
  min_baths : Option Rat
  max_baths : Option Rat
  min_sqft : Option Rat
  max_sqft : Option Rat
  property_types : Option (List String)
  states : Option (List String)
  min_sale_to_permit_years : Option Rat
  max_sale_to_permit_years : Option Rat
deriving Repr, DecidableEq

/-- The keyword arguments `filter_permits` reads. -/
structure PermitFilters where
  min_permit_year : Option Int
  max_permit_year : Option Int
deriving Repr, DecidableEq

/-- The all-`None` property filter configuration. -/
def pfNone : PropertyFilters :=
  { min_year_built := none, max_year_built := none,
    min_sale_year := none, max_sale_year := none,
    min_sale_price := none, max_sale_price := none,
    min_beds := none, max_beds := none,
    min_baths := none, max_baths := none,
    min_sqft := none, max_sqft := none,
    property_types := none, states := none,
    min_sale_to_permit_years := none, max_sale_to_permit_years := none }

/-- Year-built filter of `filter_properties`. -/
def yearBuiltMask (cfg : PropertyFilters) (p : PropertyRec) : Bool :=
  boundedMask p.yearBuilt cfg.min_year_built cfg.max_year_built

/-- Sale-year filter: bounds compare against the year of the sale date. -/
def saleYearMask (cfg : PropertyFilters) (p : PropertyRec) : Bool :=
  boundedMask (p.lastSaleDate.map Timestamp.year) cfg.min_sale_year cfg.max_sale_year

/-- Sale-price filter. -/
def salePriceMask (cfg : PropertyFilters) (p : PropertyRec) : Bool :=
  boundedMask p.lastSalePrice cfg.min_sale_price cfg.max_sale_price

/-- Beds filter. -/
def bedsMask (cfg : PropertyFilters) (p : PropertyRec) : Bool :=
  boundedMask p.beds cfg.min_beds cfg.max_beds

/-- Baths filter. -/
def bathsMask (cfg : PropertyFilters) (p : PropertyRec) : Bool :=
  boundedMask p.baths cfg.min_baths cfg.max_baths

/-- Building-size filter. -/
def sqftMask (cfg : PropertyFilters) (p : PropertyRec) : Bool :=
  boundedMask p.buildingSize cfg.min_sqft cfg.max_sqft

/-- Property-types filter: with a nonempty allowed list, the type must be
non-null, different from the `"Unknown"` placeholder, and a member. -/
def propertyTypesMask (cfg : PropertyFilters) (p : PropertyRec) : Bool :=
  match cfg.property_types with
  | none => true
  | some ts =>
    if ts.isEmpty then true
    else
      match p.propertyType with
      | none => false
      | some t => decide (t ≠ "Unknown") && decide (t ∈ ts)

/-- States filter: plain membership, no null handling (the state column is
stamped at load and never null). -/
def statesMask (cfg : PropertyFilters) (p : PropertyRec) : Bool :=
  match cfg.states with
  | none => true
  | some ss => if ss.isEmpty then true else decide (p.state ∈ ss)

/-- Is the derived sale-to-permit constraint active? -/
def saleToPermitActive (cfg : PropertyFilters) : Bool :=
  cfg.min_sale_to_permit_years.isSome || cfg.max_sale_to_permit_years.isSome

/-- `(permit_date - sale_date).days / 365.25`, as an exact rational. -/
def timeDiffYears (permitDay saleDay : Int) : Rat :=
  ((permitDay - saleDay : Int) : Rat) / (1461 / 4 : Rat)

/-- The inclusive bound test of the sale-to-permit filter. -/
def saleToPermitInRange (cfg : PropertyFilters) (t : Rat) : Bool :=
  (match cfg.min_sale_to_permit_years with
   | none => true
   | some l => decide (l ≤ t)) &&
  (match cfg.max_sale_to_permit_years with
   | none => true
   | some h => decide (t ≤ h))

/-- `permits_df.at[permit_id, 'file_date']`: the file date of the unique
row with that id; a missing id (KeyError) or a duplicated one (a Series is
returned and the code warns and skips) yields nothing. -/
def permitFileDate (permits : List PermitRec) (qid : String) : Option Timestamp :=
  match permits.filter (fun q => decide (q.permit_id = qid)) with
  | [q] => q.file_date
  | _ => none

/-- The sale-to-permit time mask of `filter_properties`: active bounds make
a property pass exactly when it has a sale date and some associated permit
with a usable file date puts the gap in range (short-circuiting OR over the
property's permit list). -/
def saleToPermitMask (b : Builder) (cfg : PropertyFilters) (p : PropertyRec) : Bool :=
  if saleToPermitActive cfg then
    match p.lastSaleDate with
    | none => false
    | some sd =>
      (permitIds b p.id).any (fun qid =>
        match permitFileDate b.permits_df qid with
        | none => false
        | some fd => saleToPermitInRange cfg (timeDiffYears fd.epochDay sd.epochDay))
  else true

/-- The conjunction of all masks of `filter_properties`, in source order. -/
def propertyMask (b : Builder) (cfg : PropertyFilters) (p : PropertyRec) : Bool :=
  yearBuiltMask cfg p && saleYearMask cfg p && salePriceMask cfg p &&
  bedsMask cfg p && bathsMask cfg p && sqftMask cfg p &&
  propertyTypesMask cfg p && statesMask cfg p && saleToPermitMask b cfg p

/-- `filter_properties`: the rows passing every active constraint. -/
def filter_properties (b : Builder) (cfg : PropertyFilters) : List PropertyRec :=
  b.properties_df.filter (propertyMask b cfg)

/-- The min-permit-year stage of `filter_permits`.  The code guards with
`if kwargs.get('min_permit_year'):`, so a missing bound or the falsy value
0 leaves every row in place; an active bound keeps non-null file dates with
a large enough year. -/
def minPermitPass (cfg : PermitFilters) (q : PermitRec) : Bool :=
  match cfg.min_permit_year with
  | none => true
  | some y =>
    if y = 0 then true
    else
      match q.file_date with
      | none => false
      | some d => decide (y ≤ d.year)

/-- The max-permit-year stage of `filter_permits`, with the same truthiness
guard. -/
def maxPermitPass (cfg : PermitFilters) (q : PermitRec) : Bool :=
  match cfg.max_permit_year with
  | none => true
  | some y =>
    if y = 0 then true
    else
      match q.file_date with
      | none => false
      | some d => decide (d.year ≤ y)

/-- `filter_permits`: the two year stages applied in order (a stage whose
bound is missing or 0 keeps the frame unchanged, its predicate being
constantly true). -/
def filter_permits (b : Builder) (cfg : PermitFilters) : List PermitRec :=
  (b.permits_df.filter (minPermitPass cfg)).filter (maxPermitPass cfg)

/-- The result record of `build_audience`. -/
structure AudienceResult where
  total_properties : Nat
  matching_properties : Nat
  matching_permits : Nat
  final_matches : Nat
  results : List PropertyRec
  filtered_permits : List (PermitRec × Option String)
deriving Repr, DecidableEq

/-- `build_audience`: exclusion-aware baseline, filtered properties with the
exclude list removed again, filtered permits annotated with their owning
property id, and the intersection with properties owning a filtered permit. -/
def build_audience (b : Builder) (pf : PropertyFilters) (qf : PermitFilters)
    (exclude : List String) : AudienceResult :=
  let available := b.properties_df.filter (fun p => !(decide (p.id ∈ exclude)))
  let filtered := (filter_properties b pf).filter (fun p => !(decide (p.id ∈ exclude)))
  let fperms := filter_permits b qf
  let pm := permit_property_map b.matches_files
  let annotated := fperms.map (fun q => (q, lookupAssoc pm q.permit_id))
  let matchingIds := fperms.filterMap (fun q =>
    match lookupAssoc pm q.permit_id with
    | some pid => if pid ≠ "" then some pid else none
    | none => none)
  let finalProps := filtered.filter (fun p => decide (p.id ∈ matchingIds))
  { total_properties := available.length
    matching_properties := filtered.length
    matching_permits := fperms.length
    final_matches := finalProps.length
    results := finalProps
    filtered_permits := annotated }

/-! ### Generic facts about the association-list and range-mask helpers -/

theorem lookupAssoc_setAssoc {m : List (String × String)} {k v k2 : String} :
    lookupAssoc (setAssoc m k v) k2 = if k = k2 then some v else lookupAssoc m k2 := by
  induction m with
  | nil =>
    by_cases h : k = k2 <;> simp [setAssoc, lookupAssoc, h]
  | cons hd tl ih =>
    obtain ⟨k0, v0⟩ := hd
    by_cases h0 : k0 = k
    · subst h0
      by_cases h2 : k0 = k2 <;> simp [setAssoc, lookupAssoc, h2]
    · by_cases h2 : k0 = k2
      · subst h2
        have hne : ¬ k = k0 := fun h => h0 h.symm
        simp [setAssoc, lookupAssoc, h0, hne]
      · simp [setAssoc, lookupAssoc, h0, h2, ih]

theorem mem_keys_setAssoc {m : List (String × String)} {k v x : String} :
    x ∈ (setAssoc m k v).map Prod.fst ↔ x ∈ m.map Prod.fst ∨ x = k := by
  induction m with
  | nil => simp [setAssoc]
  | cons hd tl ih =>
    obtain ⟨k0, v0⟩ := hd
    by_cases h0 : k0 = k
    · subst h0
      constructor
      · rintro h
        rcases (by simpa [setAssoc] using h) with h | h
        · exact Or.inl (by simp [h])
        · exact Or.inl (by simp; right; exact h)
      · rintro (h | h)
        · rcases (by simpa using h) with h | h
          · simp [setAssoc, h]
          · simp [setAssoc]; right; exact h
        · simp [setAssoc, h]
    · simp only [setAssoc, if_neg h0, List.map_cons, List.mem_cons, ih]
      tauto

theorem nodup_keys_setAssoc {m : List (String × String)} {k v : String}
    (h : (m.map Prod.fst).Nodup) : ((setAssoc m k v).map Prod.fst).Nodup := by
  induction m with
  | nil => simp [setAssoc]
  | cons hd tl ih =>
    obtain ⟨k0, v0⟩ := hd
    simp only [List.map_cons, List.nodup_cons] at h
    by_cases h0 : k0 = k
    · subst h0
      simpa [setAssoc, List.nodup_cons] using h
    · simp only [setAssoc, if_neg h0, List.map_cons, List.nodup_cons]
      refine ⟨?_, ih h.2⟩
      rw [mem_keys_setAssoc]
      rintro (hc | hc)
      · exact h.1 hc
      · exact h0 hc

theorem find?_append_eq {α : Type} (l₁ l₂ : List α) (f : α → Bool) :
    (l₁ ++ l₂).find? f =
      match l₁.find? f with
      | some x => some x
      | none => l₂.find? f := by
  induction l₁ with
  | nil => simp
  | cons a l ih =>
    by_cases h : f a = true
    · simp [List.find?, h]
    · have h' : f a = false := by
        cases hfa : f a
        · rfl
        · exact absurd hfa h
      simp [List.find?, h', ih]

theorem lookup_foldl_setAssoc (pairs : List (String × String)) :
    ∀ (m : List (String × String)) (qid : String),
    lookupAssoc (pairs.foldl (fun m pr => setAssoc m pr.2 pr.1) m) qid =
      match pairs.reverse.find? (fun pr => decide (pr.2 = qid)) with
      | some pr => some pr.1
      | none => lookupAssoc m qid := by
  induction pairs with
  | nil => intro m qid; simp
  | cons p ps ih =>
    intro m qid
    have step : (p :: ps).foldl (fun m pr => setAssoc m pr.2 pr.1) m =
        ps.foldl (fun m pr => setAssoc m pr.2 pr.1) (setAssoc m p.2 p.1) := rfl
    rw [step, ih]
    have hrev : (p :: ps).reverse = ps.reverse ++ [p] := by simp
    rw [hrev, find?_append_eq]
    cases hfind : ps.reverse.find? (fun pr => decide (pr.2 = qid)) with
    | some pr => simp
    | none =>
      by_cases hq : p.2 = qid
      · simp [List.find?, hq, lookupAssoc_setAssoc]
      · simp [List.find?, hq, lookupAssoc_setAssoc]

theorem mem_keys_appendAssoc {m : List (String × List String)} {k v x : String} :
    x ∈ (appendAssoc m k v).map Prod.fst ↔ x ∈ m.map Prod.fst ∨ x = k := by
  induction m with
  | nil => simp [appendAssoc]
  | cons hd tl ih =>
    obtain ⟨k0, l0⟩ := hd
    by_cases h0 : k0 = k
    · subst h0
      constructor
      · rintro h
        rcases (by simpa [appendAssoc] using h) with h | h
        · exact Or.inl (by simp [h])
        · exact Or.inl (by simp; right; exact h)
      · rintro (h | h)
        · rcases (by simpa using h) with h | h
          · simp [appendAssoc, h]
          · simp [appendAssoc]; right; exact h
        · simp [appendAssoc, h]
    · simp only [appendAssoc, if_neg h0, List.map_cons, List.mem_cons, ih]
      tauto

theorem nodup_keys_appendAssoc {m : List (String × List String)} {k v : String}
    (h : (m.map Prod.fst).Nodup) : ((appendAssoc m k v).map Prod.fst).Nodup := by
  induction m with
  | nil => simp [appendAssoc]
  | cons hd tl ih =>
    obtain ⟨k0, l0⟩ := hd
    simp only [List.map_cons, List.nodup_cons] at h
    by_cases h0 : k0 = k
    · subst h0
      simpa [appendAssoc, List.nodup_cons] using h
    · simp only [appendAssoc, if_neg h0, List.map_cons, List.nodup_cons]
      refine ⟨?_, ih h.2⟩
      rw [mem_keys_appendAssoc]
      rintro (hc | hc)
      · exact h.1 hc
      · exact h0 hc

theorem nodup_keys_foldl_setAssoc (pairs : List (String × String)) :
    ∀ (m : List (String × String)), (m.map Prod.fst).Nodup →
    (((pairs.foldl (fun m pr => setAssoc m pr.2 pr.1) m)).map Prod.fst).Nodup := by
  induction pairs with
  | nil => intro m h; exact h
  | cons p ps ih => intro m h; exact ih _ (nodup_keys_setAssoc h)

theorem nodup_keys_foldl_appendAssoc (pairs : List (String × String)) :
    ∀ (m : List (String × List String)), (m.map Prod.fst).Nodup →
    (((pairs.foldl (fun m pr => appendAssoc m pr.1 pr.2) m)).map Prod.fst).Nodup := by
  induction pairs with
  | nil => intro m h; exact h
  | cons p ps ih => intro m h; exact ih _ (nodup_keys_appendAssoc h)

theorem boundedMask_iff {α : Type} [LinearOrder α] (v lo hi : Option α) :
    boundedMask v lo hi = true ↔
      ((lo = none ∧ hi = none) ∨
        ∃ x, v = some x ∧ (∀ l, lo = some l → l ≤ x) ∧ (∀ h, hi = some h → x ≤ h)) := by
  cases lo <;> cases hi <;> cases v <;>
    simp [boundedMask, rangeMask]

theorem boundedMask_map_year_iff (v : Option Timestamp) (lo hi : Option Int) :
    boundedMask (v.map Timestamp.year) lo hi = true ↔
      ((lo = none ∧ hi = none) ∨
        ∃ d, v = some d ∧ (∀ l, lo = some l → l ≤ d.year) ∧ (∀ h, hi = some h → d.year ≤ h)) := by
  cases v <;> simp [boundedMask_iff]

theorem minPermitPass_iff (cfg : PermitFilters) (q : PermitRec) :
    minPermitPass cfg q = true ↔
      (∀ y, cfg.min_permit_year = some y → y ≠ 0 →
        ∃ d, q.file_date = some d ∧ y ≤ d.year) := by
  cases hmin : cfg.min_permit_year with
  | none => simp [minPermitPass, hmin]
  | some y =>
    by_cases hy : y = 0
    · subst hy; simp [minPermitPass, hmin]
    · cases hd : q.file_date <;> simp [minPermitPass, hmin, hy, hd]

theorem maxPermitPass_iff (cfg : PermitFilters) (q : PermitRec) :
    maxPermitPass cfg q = true ↔
      (∀ y, cfg.max_permit_year = some y → y ≠ 0 →
        ∃ d, q.file_date = some d ∧ d.year ≤ y) := by
  cases hmax : cfg.max_permit_year with
  | none => simp [maxPermitPass, hmax]
  | some y =>
    by_cases hy : y = 0
    · subst hy; simp [maxPermitPass, hmax]
    · cases hd : q.file_date <;> simp [maxPermitPass, hmax, hy, hd]

theorem mem_filter_permits (b : Builder) (cfg : PermitFilters) (q : PermitRec) :
    q ∈ filter_permits b cfg ↔
      q ∈ b.permits_df ∧ minPermitPass cfg q = true ∧ maxPermitPass cfg q = true := by
  simp only [filter_permits, List.mem_filter, and_assoc]

/-! ### C1: range-constraint semantics -/

/-- The permit record of the C1 counterexample: a null file date. -/
def c1_permit_null : PermitRec :=
  { permit_id := "q0", state := "VA", file_date := none }

/-- A builder holding only that permit. -/
def c1_builder : Builder :=
  { matches_files := [], properties_df := [], permits_df := [c1_permit_null] }

/-- C1, counterexample.  A permit-year range constraint set to the bound 0 is
a set constraint, yet the permit with a null file date is retained: the code
guards the permit-year stages with Python truthiness (`if kwargs.get(...)`),
so the falsy bound 0 imposes no restriction and excludes no null record,
contradicting the claim for the permit-year constraint. -/
theorem c1_counterexample :
    filter_permits c1_builder { min_permit_year := some 0, max_permit_year := some 0 }
      = [c1_permit_null] ∧ c1_permit_null.file_date = none :=
  ⟨rfl, rfl⟩

/-- C1, amended.  For the property-side range constraints (year built, sale
year, sale price, beds, baths, building size): when a constraint is set
(some bound is present), null values are excluded and a non-null value
passes exactly when it meets each present bound inclusively; either bound
may be present alone; an absent constraint restricts nothing.  The same
holds for the permit-year constraint except that a bound equal to the falsy
value 0 is treated as absent.  Membership in the filtered results is the
conjunction of the masks. -/
theorem c1_range_semantics (b : Builder) (cfg : PropertyFilters)
    (pcfg : PermitFilters) (p : PropertyRec) (q : PermitRec) :
    (yearBuiltMask cfg p = true ↔
      ((cfg.min_year_built = none ∧ cfg.max_year_built = none) ∨
        ∃ x, p.yearBuilt = some x ∧ (∀ l, cfg.min_year_built = some l → l ≤ x) ∧
          (∀ h, cfg.max_year_built = some h → x ≤ h))) ∧
    (saleYearMask cfg p = true ↔
      ((cfg.min_sale_year = none ∧ cfg.max_sale_year = none) ∨
        ∃ d, p.lastSaleDate = some d ∧ (∀ l, cfg.min_sale_year = some l → l ≤ d.year) ∧
          (∀ h, cfg.max_sale_year = some h → d.year ≤ h))) ∧
    (salePriceMask cfg p = true ↔
      ((cfg.min_sale_price = none ∧ cfg.max_sale_price = none) ∨
        ∃ x, p.lastSalePrice = some x ∧ (∀ l, cfg.min_sale_price = some l → l ≤ x) ∧
          (∀ h, cfg.max_sale_price = some h → x ≤ h))) ∧
    (bedsMask cfg p = true ↔
      ((cfg.min_beds = none ∧ cfg.max_beds = none) ∨
        ∃ x, p.beds = some x ∧ (∀ l, cfg.min_beds = some l → l ≤ x) ∧
          (∀ h, cfg.max_beds = some h → x ≤ h))) ∧
    (bathsMask cfg p = true ↔
      ((cfg.min_baths = none ∧ cfg.max_baths = none) ∨
        ∃ x, p.baths = some x ∧ (∀ l, cfg.min_baths = some l → l ≤ x) ∧
          (∀ h, cfg.max_baths = some h → x ≤ h))) ∧
    (sqftMask cfg p = true ↔
      ((cfg.min_sqft = none ∧ cfg.max_sqft = none) ∨
        ∃ x, p.buildingSize = some x ∧ (∀ l, cfg.min_sqft = some l → l ≤ x) ∧
          (∀ h, cfg.max_sqft = some h → x ≤ h))) ∧
    (q ∈ filter_permits b pcfg ↔
      q ∈ b.permits_df ∧
      (∀ y, pcfg.min_permit_year = some y → y ≠ 0 →
        ∃ d, q.file_date = some d ∧ y ≤ d.year) ∧
      (∀ y, pcfg.max_permit_year = some y → y ≠ 0 →
        ∃ d, q.file_date = some d ∧ d.year ≤ y)) ∧
    (p ∈ filter_properties b cfg ↔
      p ∈ b.properties_df ∧ propertyMask b cfg p = true) := by
  refine ⟨boundedMask_iff _ _ _, boundedMask_map_year_iff _ _ _, boundedMask_iff _ _ _,
    boundedMask_iff _ _ _, boundedMask_iff _ _ _, boundedMask_iff _ _ _, ?_, ?_⟩
  · rw [mem_filter_permits, minPermitPass_iff, maxPermitPass_iff]
  · simp [filter_properties, List.mem_filter]

/-! ### C8: property-types placeholder semantics -/

/-- C8.  With a nonempty allowed set, a property passes the property-types
constraint exactly when its type is non-null, not the `"Unknown"`
placeholder, and a member of the set; in particular a null or `"Unknown"`
type is excluded even when `"Unknown"` is literally in the allowed set. -/
theorem c8_property_types_semantics (cfg : PropertyFilters) (p : PropertyRec)
    (ts : List String) (hts : cfg.property_types = some ts) (hne : ts ≠ []) :
    (propertyTypesMask cfg p = true ↔
      ∃ t, p.propertyType = some t ∧ t ≠ "Unknown" ∧ t ∈ ts) ∧
    (p.propertyType = none ∨ p.propertyType = some "Unknown" →
      propertyTypesMask cfg p = false) := by
  have hne2 : ts.isEmpty = false := by
    cases ts with
    | nil => exact absurd rfl hne
    | cons a l => rfl
  constructor
  · cases ht : p.propertyType <;> simp [propertyTypesMask, hts, hne2, ht, and_assoc]
  · rintro (h | h) <;> simp [propertyTypesMask, hts, hne2, h]

/-- The C8 configuration: the placeholder is literally in the allowed set. -/
def c8_filters : PropertyFilters :=
  { pfNone with property_types := some ["Unknown", "Condo"] }

/-- A property whose type is the `"Unknown"` placeholder. -/
def c8_prop_unknown : PropertyRec :=
  { id := "u1", state := "VA", propertyType := some "Unknown", yearBuilt := none,
    beds := none, baths := none, buildingSize := none, lastSaleDate := none,
    lastSalePrice := none }

/-- A property with a selectable type. -/
def c8_prop_condo : PropertyRec :=
  { id := "u2", state := "VA", propertyType := some "Condo", yearBuilt := none,
    beds := none, baths := none, buildingSize := none, lastSaleDate := none,
    lastSalePrice := none }

/-- C8, witness: even with `"Unknown"` in the allowed set, the placeholder
property is excluded while the `"Condo"` property passes. -/
theorem c8_witness :
    propertyTypesMask c8_filters c8_prop_unknown = false ∧
    propertyTypesMask c8_filters c8_prop_condo = true :=
  ⟨(c8_property_types_semantics c8_filters c8_prop_unknown ["Unknown", "Condo"] rfl
      (by decide)).2 (Or.inr rfl),
   (c8_property_types_semantics c8_filters c8_prop_condo ["Unknown", "Condo"] rfl
      (by decide)).1.mpr ⟨"Condo", rfl, by decide, by decide⟩⟩

/-! ### C6: normalization key semantics -/

/-- C6, counterexample.  The zip code component is stringified but not
lower-cased by `normalize_address`, so changing the letter case of the zip
component changes the produced key, contradicting the claim that changing
the case of any component leaves the key unchanged. -/
theorem c6_counterexample :
    normalize_address (some "123") (some "Main St") (some "Arlington") (some "2220A")
      ≠ normalize_address (some "123") (some "Main St") (some "Arlington") (some "2220a") := by
  decide

/-- C6, amended.  Both key functions lower-case the street number, street
and city components and concatenate with single-space separators in fixed
order; the zip code is stringified verbatim (not lower-cased).  They are
total — a missing component stringifies to the literal `"None"` token — and
case-insensitive in every component except the zip: replacing the street
number, street or city by any variant with the same lower-casing leaves
both keys unchanged. -/
theorem c6_normalize_semantics (n n2 s s2 c c2 z : Option String)
    (hn : pyLower (pyStr n) = pyLower (pyStr n2))
    (hs : pyLower (pyStr s) = pyLower (pyStr s2))
    (hc : pyLower (pyStr c) = pyLower (pyStr c2)) :
    normalize_address n s c z = normalize_address n2 s2 c2 z ∧
    normalize_address_without_city n s z = normalize_address_without_city n2 s2 z ∧
    normalize_address none none none none = "none none none None" ∧
    normalize_address_without_city none none none = "none none None" := by
  unfold normalize_address normalize_address_without_city
  rw [hn, hs, hc]
  exact ⟨rfl, rfl, by decide, by decide⟩

/-- C6, witness: the spec's own example, lower- and upper-case spellings of
the same address produce the same key. -/
theorem c6_witness :
    normalize_address (some "123") (some "Main St") (some "Arlington") (some "22201")
      = normalize_address (some "123") (some "MAIN ST") (some "ARLINGTON") (some "22201") :=
  (c6_normalize_semantics (some "123") (some "123") (some "Main St") (some "MAIN ST")
    (some "Arlington") (some "ARLINGTON") (some "22201")
    (by decide) (by decide) (by decide)).1

/-! ### C7: the include-nulls toggle is not honored by the filtering core -/

/-- The C7 property with a known year built. -/
def c7_prop_known : PropertyRec :=
  { id := "p1", state := "VA", propertyType := some "Single Family",
    yearBuilt := some 2000, beds := none, baths := none, buildingSize := none,
    lastSaleDate := none, lastSalePrice := none }

/-- The C7 property with a null year built. -/
def c7_prop_null : PropertyRec :=
  { id := "p2", state := "VA", propertyType := some "Single Family",
    yearBuilt := none, beds := none, baths := none, buildingSize := none,
    lastSaleDate := none, lastSalePrice := none }

/-- The C7 builder. -/
def c7_builder : Builder :=
  { matches_files := [], properties_df := [c7_prop_known, c7_prop_null],
    permits_df := [] }

/-- C7.  `PropertyFilters` holds every keyword `filter_properties` reads —
the engine reads no per-field include-nulls key at all (the UI's
`include_null_*` session flags are never forwarded by
`build_property_filters` nor consulted by the engine) — and with a set
year-built constraint the null-valued property is unconditionally excluded:
the filtering core does not honor an include-nulls override. -/
theorem c7_nulls_excluded_regardless :
    filter_properties c7_builder { pfNone with min_year_built := some 1990 }
      = [c7_prop_known] ∧ c7_prop_null ∈ c7_builder.properties_df ∧
      c7_prop_null.yearBuilt = none := by
  exact ⟨by decide, by decide, rfl⟩

/-! ### C9: when loading raises -/

/-- The single usable match entry of the C9 counterexample. -/
def c9_match : RawMatch :=
  { property := some { id := some "p1" }, permit := some { permit_id := some "q1" } }

/-- Two configured regions: MD contributes one usable record, VA none. -/
def c9_files : List (String × List RawMatch) :=
  [("MD", [c9_match]), ("VA", [])]

/-- C9, counterexample.  The VA region yields zero usable property records,
yet `load_data` succeeds: the code only raises when the combined property
list over all regions is empty, not when some region is empty. -/
theorem c9_counterexample :
    (∃ v, load_data c9_files = Except.ok v) ∧
    (∃ ms, ("VA", ms) ∈ c9_files ∧ regionUsable ms = 0) :=
  ⟨⟨[{ id := some "p1" }], rfl⟩, ⟨[], by decide, rfl⟩⟩

/-- C9, amended.  `load_data` fails with the data-unavailable error exactly
when no region contributes any usable property record — that is, when every
match entry of every configured file lacks a `property` object. -/
theorem c9_error_iff_no_usable (files : List (String × List RawMatch)) :
    (∃ e, load_data files = Except.error e) ↔
      ∀ sf ∈ files, ∀ m ∈ sf.2, m.property = none := by
  have h1 : (∃ e, load_data files = Except.error e) ↔ properties_list files = [] := by
    by_cases h : properties_list files = []
    · simp [load_data, h]
    · have hne : (properties_list files).isEmpty = false := by
        cases hl : properties_list files with
        | nil => exact absurd hl h
        | cons a l => rfl
      simp [load_data, hne, h]
  rw [h1]
  unfold properties_list
  rw [List.flatMap_eq_nil_iff]
  simp only [List.filterMap_eq_nil_iff]

/-! ### C10: shape of the property-permit index -/

/-- The duplicated match entry of the C10 counterexample. -/
def c10_match : RawMatch :=
  { property := some { id := some "p" }, permit := some { permit_id := some "q" } }

/-- One region whose file mentions the same property-permit pair twice. -/
def c10_files : List (String × List RawMatch) :=
  [("VA", [c10_match, c10_match])]

/-- C10, counterexample.  The scan appends the permit id to the property's
list without deduplication, so the same permit id can occur twice in one
property's list: `property_permit_map` is not set-valued as claimed. -/
theorem c10_counterexample :
    lookupAssoc (property_permit_map c10_files) "p" = some ["q", "q"] ∧
    ¬ (["q", "q"] : List String).Nodup :=
  ⟨rfl, by decide⟩

/-- C10, amended.  Both maps have each key at most once (dict semantics):
`permit_property_map` is single-valued, each permit id resolving to the
property id of the LAST admitted pair naming it in scan order (later
entries overwrite earlier ones), and `property_permit_map` associates each
property id with one ordered list of permit ids — a list in scan order that
may contain repeats, not a set. -/
theorem c10_index_invariants (files : List (String × List RawMatch)) :
    ((permit_property_map files).map Prod.fst).Nodup ∧
    ((property_permit_map files).map Prod.fst).Nodup ∧
    (∀ qid, lookupAssoc (permit_property_map files) qid =
      ((admittedPairs files).reverse.find? (fun pr => decide (pr.2 = qid))).map Prod.fst) := by
  refine ⟨?_, ?_, ?_⟩
  · exact nodup_keys_foldl_setAssoc (admittedPairs files) [] (by simp)
  · exact nodup_keys_foldl_appendAssoc (admittedPairs files) [] (by simp)
  · intro qid
    have h := lookup_foldl_setAssoc (admittedPairs files) [] qid
    rw [permit_property_map, h]
    cases hfind : (admittedPairs files).reverse.find? (fun pr => decide (pr.2 = qid)) with
    | some pr => simp
    | none => simp [lookupAssoc]

/-! ### C2: the derived sale-to-permit constraint -/

theorem saleToPermitInRange_iff (cfg : PropertyFilters) (t : Rat) :
    saleToPermitInRange cfg t = true ↔
      (∀ l, cfg.min_sale_to_permit_years = some l → l ≤ t) ∧
      (∀ h, cfg.max_sale_to_permit_years = some h → t ≤ h) := by
  cases hl : cfg.min_sale_to_permit_years <;> cases hh : cfg.max_sale_to_permit_years <;>
    simp [saleToPermitInRange, hl, hh]

theorem filter_permit_id_singleton {ps : List PermitRec} {qid : String}
    (hq : (ps.map PermitRec.permit_id).Nodup) {q : PermitRec}
    (hmem : q ∈ ps) (hid : q.permit_id = qid) :
    ps.filter (fun r => decide (r.permit_id = qid)) = [q] := by
  induction ps with
  | nil => cases hmem
  | cons r rest ih =>
    simp only [List.map_cons, List.nodup_cons] at hq
    rcases List.mem_cons.mp hmem with h | h
    · subst h
      have hfr : rest.filter (fun r2 => decide (r2.permit_id = qid)) = [] := by
        rw [List.filter_eq_nil_iff]
        intro a ha
        simp only [decide_eq_true_eq]
        intro hcontra
        apply hq.1
        rw [hid, ← hcontra]
        exact List.mem_map.mpr ⟨a, ha, rfl⟩
      simp [List.filter_cons, hid, hfr]
    · have hrne : ¬ (r.permit_id = qid) := by
        intro hcontra
        apply hq.1
        rw [hcontra, ← hid]
        exact List.mem_map.mpr ⟨q, h, rfl⟩
      simp only [List.filter_cons, decide_eq_true_eq, if_neg hrne]
      exact ih hq.2 h

theorem permitFileDate_eq_iff {ps : List PermitRec} {qid : String}
    (hq : (ps.map PermitRec.permit_id).Nodup) (fd : Timestamp) :
    permitFileDate ps qid = some fd ↔
      ∃ q, q ∈ ps ∧ q.permit_id = qid ∧ q.file_date = some fd := by
  constructor
  · intro h
    unfold permitFileDate at h
    cases hfil : ps.filter (fun r => decide (r.permit_id = qid)) with
    | nil => rw [hfil] at h; cases h
    | cons a l =>
      cases l with
      | nil =>
        rw [hfil] at h
        have ha : a ∈ ps.filter (fun r => decide (r.permit_id = qid)) := by
          rw [hfil]; exact List.mem_singleton_self a
        have ham := List.mem_filter.mp ha
        exact ⟨a, ham.1, by simpa using ham.2, h⟩
      | cons b l2 => rw [hfil] at h; cases h
  · rintro ⟨q, hmem, hid, hfd⟩
    unfold permitFileDate
    rw [filter_permit_id_singleton hq hmem hid]
    exact hfd

theorem match_fileDate_iff {ps : List PermitRec} {qid : String}
    (hq : (ps.map PermitRec.permit_id).Nodup) (f : Timestamp → Bool) :
    ((match permitFileDate ps qid with
      | none => false
      | some fd => f fd) = true) ↔
    ∃ q, q ∈ ps ∧ q.permit_id = qid ∧ ∃ fd, q.file_date = some fd ∧ f fd = true := by
  cases hfd : permitFileDate ps qid with
  | none =>
    constructor
    · intro h; exact absurd h (by simp)
    · rintro ⟨q, hmem, hid, fd, hfdq, hf⟩
      have hcontra : permitFileDate ps qid = some fd :=
        (permitFileDate_eq_iff hq fd).mpr ⟨q, hmem, hid, hfdq⟩
      rw [hfd] at hcontra; cases hcontra
  | some fd =>
    constructor
    · intro h
      obtain ⟨q, hmem, hid, hfdq⟩ := (permitFileDate_eq_iff hq fd).mp hfd
      exact ⟨q, hmem, hid, fd, hfdq, h⟩
    · rintro ⟨q, hmem, hid, fd2, hfdq, hf⟩
      have heq : permitFileDate ps qid = some fd2 :=
        (permitFileDate_eq_iff hq fd2).mpr ⟨q, hmem, hid, hfdq⟩
      rw [hfd] at heq
      injection heq with he
      rw [← he] at hf
      exact hf

/-- C2.  With the sale-to-permit constraint active and table-unique permit
ids, a property passes the time mask exactly when it has a non-null sale
date and at least one permit id associated to it by the index resolves to a
permit whose non-null file date puts `(file_date - sale_date).days / 365.25`
within every configured inclusive bound (an OR over the property's permit
list); in particular no sale date, no associated permits, or no dated
permits means the property never passes. -/
theorem c2_sale_to_permit_iff (b : Builder) (cfg : PropertyFilters) (p : PropertyRec)
    (hq : (b.permits_df.map PermitRec.permit_id).Nodup)
    (hact : saleToPermitActive cfg = true) :
    saleToPermitMask b cfg p = true ↔
      ∃ sd, p.lastSaleDate = some sd ∧
        ∃ qid, qid ∈ permitIds b p.id ∧
          ∃ q, q ∈ b.permits_df ∧ q.permit_id = qid ∧
            ∃ fd, q.file_date = some fd ∧
              (∀ l, cfg.min_sale_to_permit_years = some l →
                l ≤ timeDiffYears fd.epochDay sd.epochDay) ∧
              (∀ h, cfg.max_sale_to_permit_years = some h →
                timeDiffYears fd.epochDay sd.epochDay ≤ h) := by
  unfold saleToPermitMask
  rw [if_pos hact]
  cases hsd : p.lastSaleDate with
  | none => simp
  | some sd =>
    rw [List.any_eq_true]
    constructor
    · rintro ⟨qid, hqid, hpass⟩
      obtain ⟨q, hmem, hid, fd, hfdq, hf⟩ := (match_fileDate_iff hq _).mp hpass
      rw [saleToPermitInRange_iff] at hf
      exact ⟨sd, rfl, qid, hqid, q, hmem, hid, fd, hfdq, hf.1, hf.2⟩
    · rintro ⟨sd2, hsd2, qid, hqid, q, hmem, hid, fd, hfdq, hmin, hmax⟩
      injection hsd2 with he
      rw [← he] at hmin hmax
      refine ⟨qid, hqid, ?_⟩
      rw [match_fileDate_iff hq _]
      exact ⟨q, hmem, hid, fd, hfdq, (saleToPermitInRange_iff cfg _).mpr ⟨hmin, hmax⟩⟩

/-- The sale date of the C2 witness: 2020-01-01. -/
def c2_sale_ts : Timestamp := { year := 2020, epochDay := 18262 }

/-- Witness permit A, filed 2019-06-01 (about -0.59 years from the sale). -/
def c2_permit_a : PermitRec :=
  { permit_id := "A", state := "VA", file_date := some { year := 2019, epochDay := 18048 } }

/-- Witness permit B, filed 2023-01-01 (about +3 years from the sale). -/
def c2_permit_b : PermitRec :=
  { permit_id := "B", state := "VA", file_date := some { year := 2023, epochDay := 19358 } }

/-- The witness property, sold 2020-01-01. -/
def c2_prop : PropertyRec :=
  { id := "P1", state := "VA", propertyType := some "Single Family",
    yearBuilt := none, beds := none, baths := none, buildingSize := none,
    lastSaleDate := some c2_sale_ts, lastSalePrice := none }

/-- The match entry linking the property to permit A. -/
def c2_match_a : RawMatch :=
  { property := some { id := some "P1" }, permit := some { permit_id := some "A" } }

/-- The match entry linking the property to permit B. -/
def c2_match_b : RawMatch :=
  { property := some { id := some "P1" }, permit := some { permit_id := some "B" } }

/-- The C2 witness builder. -/
def c2_builder : Builder :=
  { matches_files := [("VA", [c2_match_a, c2_match_b])],
    properties_df := [c2_prop], permits_df := [c2_permit_a, c2_permit_b] }

/-- The C2 witness filter: sale-to-permit gap within [-1, 1] years. -/
def c2_filters : PropertyFilters :=
  { pfNone with min_sale_to_permit_years := some (-1),
                max_sale_to_permit_years := some 1 }

/-- C2, witness: the spec's example — one permit in range suffices even
though the other permit is out of range. -/
theorem c2_witness : saleToPermitMask c2_builder c2_filters c2_prop = true :=
  (c2_sale_to_permit_iff c2_builder c2_filters c2_prop (by decide) rfl).mpr
    ⟨c2_sale_ts, rfl, "A", by decide, c2_permit_a, by decide, rfl,
     { year := 2019, epochDay := 18048 }, rfl,
     by
       intro l hl
       have hl2 : some (-1 : Rat) = some l := hl
       injection hl2 with he
       rw [← he]
       norm_num [timeDiffYears, c2_sale_ts],
     by
       intro h hh
       have hh2 : some (1 : Rat) = some h := hh
       injection hh2 with he
       rw [← he]
       norm_num [timeDiffYears, c2_sale_ts]⟩

/-! ### C3: build_audience count consistency -/

theorem nodup_length_le_dedup {props sub : List PropertyRec} (ids : List String)
    (hnodup : (props.map PropertyRec.id).Nodup) (hsub : List.Sublist sub props)
    (hin : ∀ p ∈ sub, p.id ∈ ids) :
    sub.length ≤ ids.dedup.length := by
  have h1 : (sub.map PropertyRec.id).Nodup :=
    List.Nodup.sublist (List.Sublist.map PropertyRec.id hsub) hnodup
  have h2 : (sub.map PropertyRec.id) ⊆ ids.dedup := by
    intro x hx
    obtain ⟨p, hp, he⟩ := List.mem_map.mp hx
    rw [← he]
    exact List.mem_dedup.mpr (hin p hp)
  have h3 := (List.subperm_of_subset h1 h2).length_le
  simpa using h3

/-- C3.  Under the data-model invariant that loaded property ids are unique,
`build_audience` reports consistent counts: `final_matches` is at most
`matching_properties` and at most the number of distinct property ids
reachable from the filtered permits through the permit-to-property map; the
exclude list shapes the baseline (`total_properties` counts exactly the
loaded properties outside it) and the final set (no excluded id appears in
the results). -/
theorem c3_build_audience_counts (b : Builder) (pf : PropertyFilters)
    (qf : PermitFilters) (exclude : List String)
    (hnodup : (b.properties_df.map PropertyRec.id).Nodup) :
    (build_audience b pf qf exclude).final_matches ≤
      (build_audience b pf qf exclude).matching_properties ∧
    (build_audience b pf qf exclude).final_matches ≤
      (((filter_permits b qf).filterMap (fun q =>
        lookupAssoc (permit_property_map b.matches_files) q.permit_id)).dedup).length ∧
    (build_audience b pf qf exclude).total_properties =
      (b.properties_df.filter (fun p => !(decide (p.id ∈ exclude)))).length ∧
    (∀ p ∈ (build_audience b pf qf exclude).results, p.id ∉ exclude) := by
  refine ⟨List.length_filter_le _ _, ?_, rfl, ?_⟩
  · refine nodup_length_le_dedup _ hnodup
      ((List.filter_sublist _).trans ((List.filter_sublist _).trans
        (List.filter_sublist _))) ?_
    intro p hp
    have hfin := (List.mem_filter.mp hp).2
    have hm : p.id ∈ (filter_permits b qf).filterMap (fun q =>
        match lookupAssoc (permit_property_map b.matches_files) q.permit_id with
        | some pid => if pid ≠ "" then some pid else none
        | none => none) := by simpa using hfin
    obtain ⟨q, hq, hval⟩ := List.mem_filterMap.mp hm
    refine List.mem_filterMap.mpr ⟨q, hq, ?_⟩
    cases hlk : lookupAssoc (permit_property_map b.matches_files) q.permit_id with
    | none => rw [hlk] at hval; cases hval
    | some pid =>
      rw [hlk] at hval
      by_cases hemp : pid = ""
      · simp [hemp] at hval
      · simp [hemp] at hval
        rw [hval]
  · intro p hp
    have h1 := (List.mem_filter.mp hp).1
    have h2 := (List.mem_filter.mp h1).2
    simpa using h2

/-- A C3 witness property owning the permit. -/
def c3_prop1 : PropertyRec :=
  { id := "p1", state := "VA", propertyType := some "Condo", yearBuilt := none,
    beds := none, baths := none, buildingSize := none, lastSaleDate := none,
    lastSalePrice := none }

/-- A C3 witness property that will be excluded. -/
def c3_prop2 : PropertyRec :=
  { id := "p2", state := "VA", propertyType := some "Condo", yearBuilt := none,
    beds := none, baths := none, buildingSize := none, lastSaleDate := none,
    lastSalePrice := none }

/-- The C3 witness permit. -/
def c3_permit : PermitRec :=
  { permit_id := "q1", state := "VA", file_date := some { year := 2015, epochDay := 16436 } }

/-- The C3 witness match entry. -/
def c3_match : RawMatch :=
  { property := some { id := some "p1" }, permit := some { permit_id := some "q1" } }

/-- The C3 witness builder. -/
def c3_builder : Builder :=
  { matches_files := [("VA", [c3_match])],
    properties_df := [c3_prop1, c3_prop2], permits_df := [c3_permit] }

/-- C3, witness: the count inequalities at a concrete build. -/
theorem c3_witness :
    (build_audience c3_builder pfNone
        { min_permit_year := none, max_permit_year := none } ["p2"]).final_matches ≤
      (build_audience c3_builder pfNone
        { min_permit_year := none, max_permit_year := none } ["p2"]).matching_properties :=
  (c3_build_audience_counts c3_builder pfNone
    { min_permit_year := none, max_permit_year := none } ["p2"] (by decide)).1

/-! ### C4: duplicate resolution -/

/-- The grouping invariant: every group is nonempty and every member is a
matching-eligible property whose no-city key is the group's key. -/
def GroupsOk (gs : List (String × List MatchProp)) : Prop :=
  ∀ kg ∈ gs, kg.2 ≠ [] ∧ ∀ p ∈ kg.2, noCityKeyOf p = some kg.1

theorem groupsOk_append : ∀ (gs : List (String × List MatchProp)) (k : String)
    (p : MatchProp), GroupsOk gs → noCityKeyOf p = some k →
    GroupsOk (groupAppend gs k p) := by
  intro gs
  induction gs with
  | nil =>
    intro k p _ hp kg hkg
    simp only [groupAppend, List.mem_singleton] at hkg
    subst hkg
    refine ⟨by simp, ?_⟩
    intro q hq
    simp only [List.mem_singleton] at hq
    subst hq
    simpa using hp
  | cons hd tl ih =>
    intro k p hgs hp kg hkg
    obtain ⟨k0, g0⟩ := hd
    by_cases h0 : k0 = k
    · subst h0
      rw [groupAppend] at hkg
      simp only [if_pos rfl] at hkg
      rcases List.mem_cons.mp hkg with he | hmem
      · subst he
        have base := hgs (k0, g0) (List.mem_cons_self _ _)
        refine ⟨by simp, ?_⟩
        intro q hq
        rcases List.mem_append.mp hq with h | h
        · exact base.2 q h
        · simp only [List.mem_singleton] at h
          subst h
          simpa using hp
      · exact hgs kg (List.mem_cons_of_mem _ hmem)
    · rw [groupAppend] at hkg
      simp only [if_neg h0] at hkg
      rcases List.mem_cons.mp hkg with he | hmem
      · subst he
        exact hgs (k0, g0) (List.mem_cons_self _ _)
      · have htl : GroupsOk tl := fun kg2 h2 => hgs kg2 (List.mem_cons_of_mem _ h2)
        exact ih k p htl hp kg hmem

theorem groupsOk_buildGroups (props : List MatchProp) : GroupsOk (buildGroups props) := by
  suffices h : ∀ gs, GroupsOk gs →
      GroupsOk (props.foldl (fun gs p =>
        match noCityKeyOf p with
        | some k => groupAppend gs k p
        | none => gs) gs) by
    exact h [] (by intro kg hkg; cases hkg)
  induction props with
  | nil => intro gs h; exact h
  | cons p ps ih =>
    intro gs hgs
    rw [List.foldl_cons]
    apply ih
    cases hk : noCityKeyOf p with
    | none => simpa [hk] using hgs
    | some k =>
      simp only [hk]
      exact groupsOk_append gs k p hgs hk

theorem find?_split {α : Type} (f : α → Bool) :
    ∀ (l : List α) (x : α), l.find? f = some x →
    ∃ pre suf, l = pre ++ x :: suf ∧ f x = true ∧ ∀ q ∈ pre, f q = false := by
  intro l
  induction l with
  | nil => intro x h; cases h
  | cons a t ih =>
    intro x h
    by_cases hfa : f a = true
    · rw [List.find?_cons_of_pos t hfa] at h
      injection h with he
      subst he
      exact ⟨[], t, by simp, hfa, by intro q hq; cases hq⟩
    · have hfa2 : f a = false := by
        cases h2 : f a
        · rfl
        · exact absurd h2 hfa
      rw [List.find?_cons_of_neg t (by simp [hfa2])] at h
      obtain ⟨pre, suf, he, hx, hpre⟩ := ih x h
      refine ⟨a :: pre, suf, by rw [he]; rfl, hx, ?_⟩
      intro q hq
      rcases List.mem_cons.mp hq with h2 | h2
      · subst h2; exact hfa2
      · exact hpre q h2

/-- C4.  Every group produced by the grouping pass consists of
matching-eligible properties sharing the group's no-city key, and duplicate
resolution keeps exactly one member: a singleton group passes through
unchanged, and a larger group keeps the first member (in original order)
whose full normalized address has a permit match, or its first member when
no member has one. -/
theorem c4_duplicate_resolution (permitKeys : List String) (props : List MatchProp)
    (k : String) (g : List MatchProp) (hg : (k, g) ∈ buildGroups props) :
    g ≠ [] ∧
    (∀ p ∈ g, noCityKeyOf p = some k) ∧
    (selectFromGroup permitKeys g).length = 1 ∧
    (∀ p0, g = [p0] → selectFromGroup permitKeys g = [p0]) ∧
    (1 < g.length →
      ((∃ q ∈ g, groupHasPermitMatch permitKeys q = true) →
        ∃ pre p suf, g = pre ++ p :: suf ∧
          (∀ q ∈ pre, groupHasPermitMatch permitKeys q = false) ∧
          groupHasPermitMatch permitKeys p = true ∧
          selectFromGroup permitKeys g = [p]) ∧
      ((∀ q ∈ g, groupHasPermitMatch permitKeys q = false) →
        ∃ p0 rest, g = p0 :: rest ∧ selectFromGroup permitKeys g = [p0])) := by
  obtain ⟨hne, hkeys⟩ := groupsOk_buildGroups props (k, g) hg
  refine ⟨hne, hkeys, ?_, ?_, ?_⟩
  · cases g with
    | nil => exact absurd rfl hne
    | cons a t =>
      cases t with
      | nil => rfl
      | cons b t2 =>
        cases hf : (a :: b :: t2).find? (groupHasPermitMatch permitKeys) with
        | some r => simp [selectFromGroup, hf]
        | none => simp [selectFromGroup, hf]
  · intro p0 he
    subst he
    rfl
  · intro hlen
    constructor
    · rintro ⟨q, hqmem, hqmatch⟩
      have hres : ((g.find? (groupHasPermitMatch permitKeys)).isSome) :=
        List.find?_isSome.mpr ⟨q, hqmem, hqmatch⟩
      obtain ⟨r, hr⟩ := Option.isSome_iff_exists.mp hres
      obtain ⟨pre, suf, hsplit, hrt, hpre⟩ := find?_split _ g r hr
      refine ⟨pre, r, suf, hsplit, hpre, hrt, ?_⟩
      cases g with
      | nil => exact absurd rfl hne
      | cons a t =>
        cases t with
        | nil => simp at hlen
        | cons b t2 => simp [selectFromGroup, hr]
    · intro hall
      cases g with
      | nil => exact absurd rfl hne
      | cons a t =>
        cases t with
        | nil => simp at hlen
        | cons b t2 =>
          have hfn : (a :: b :: t2).find? (groupHasPermitMatch permitKeys) = none := by
            rw [List.find?_eq_none]
            intro x hx
            simp [hall x hx]
          exact ⟨a, b :: t2, rfl, by simp [selectFromGroup, hfn]⟩

/-- The first C4 witness variant (misspelled city). -/
def c4_prop_a : MatchProp :=
  { id := some "a", addressLine1 := some "123 Main St", addressLine2 := none,
    city := some "Arlingtun", zipCode := some "22201",
    propertyType := some "Single Family" }

/-- The second C4 witness variant (city spelled as in the permit table). -/
def c4_prop_b : MatchProp :=
  { id := some "b", addressLine1 := some "123 Main St", addressLine2 := none,
    city := some "Arlington", zipCode := some "22201",
    propertyType := some "Single Family" }

/-- The witness permit-table keys: only the second variant's full address. -/
def c4_keys : List String := ["123 main st arlington 22201"]

/-- C4, witness: the two variants form one group under the no-city key and
exactly one member is selected. -/
theorem c4_witness :
    (selectFromGroup c4_keys [c4_prop_a, c4_prop_b]).length = 1 :=
  (c4_duplicate_resolution c4_keys [c4_prop_a, c4_prop_b] "123 main st 22201"
    [c4_prop_a, c4_prop_b] (by decide)).2.2.1

/-! ### C5: batch processing equals one-shot processing -/

theorem flatten_map_flatMap {α β : Type} (batches : List (List α)) (f : α → List β) :
    (batches.map (fun b2 => b2.flatMap f)).flatten = (batches.flatten).flatMap f := by
  induction batches with
  | nil => rfl
  | cons b bs ih => simp [List.flatMap_append, ih]

/-- C5.  For every permit table and every family of batches whose
concatenation is a permutation of the property list, the concatenated
per-batch results of `process_batch` are a permutation (equal as an
order-independent multiset) of the result of one `process_batch` run over
the whole list. -/
theorem c5_batch_equivalence (permits : List PermitRow) (batches : List (List MatchProp))
    (props : List MatchProp) (h : (batches.flatten).Perm props) :
    ((batches.map (fun batch => process_batch batch permits)).flatten).Perm
      (process_batch props permits) := by
  unfold process_batch
  rw [flatten_map_flatMap]
  exact List.Perm.flatMap_right _ h

/-- The C5 witness permit table. -/
def c5_permits : List PermitRow :=
  [{ permit_id := some "q1", state := some "VA", normalized_address := "1 a b 2" }]

/-- The first C5 witness property. -/
def c5_p1 : MatchProp :=
  { id := some "x", addressLine1 := some "1 a", addressLine2 := none,
    city := some "b", zipCode := some "2", propertyType := some "Single Family" }

/-- The second C5 witness property. -/
def c5_p2 : MatchProp :=
  { id := some "y", addressLine1 := some "2 c", addressLine2 := none,
    city := some "d", zipCode := some "3", propertyType := some "Single Family" }

/-- C5, witness: two singleton batches against the same permit table give a
permutation of the one-shot run. -/
theorem c5_witness :
    (([[c5_p1], [c5_p2]].map (fun batch => process_batch batch c5_permits)).flatten).Perm
      (process_batch [c5_p1, c5_p2] c5_permits) :=
  c5_batch_equivalence c5_permits [[c5_p1], [c5_p2]] [c5_p1, c5_p2] (by decide)
